import Mathlib

/-!
Verification of the COCO scrabble ratings calculator (the repository files
`rating.py` and `all_rating.py`) against its natural-language specification.

The Python code computes with IEEE floats; we model the arithmetic exactly,
using rationals for every quantity the program stores and real numbers where
`math.sqrt` enters.  Python's `round` (round half to even) is modelled by
`pyRound` / `pyRoundR` below, and `round(math.sqrt(q), 2)` by the computable
integer-arithmetic function `roundSqrt2`, which is proved equal to the
real-valued specification in `roundSqrt2_eq`.
-/

attribute [local semireducible] Rat.inv Rat.mul Rat.add Rat.sub

namespace Coco

/-- Python's `round` applied to an exact rational: nearest integer, ties to
even. -/
def pyRound (q : ℚ) : ℤ :=
  if q - (⌊q⌋ : ℚ) < 1/2 then ⌊q⌋
  else if 1/2 < q - (⌊q⌋ : ℚ) then ⌊q⌋ + 1
  else if 2 ∣ ⌊q⌋ then ⌊q⌋ else ⌊q⌋ + 1

/-- Python's `round` applied to a real argument: nearest integer, ties to
even. -/
noncomputable def pyRoundR (x : ℝ) : ℤ :=
  if x - (⌊x⌋ : ℝ) < 1/2 then ⌊x⌋
  else if 1/2 < x - (⌊x⌋ : ℝ) then ⌊x⌋ + 1
  else if 2 ∣ ⌊x⌋ then ⌊x⌋ else ⌊x⌋ + 1

/-- Rounding `√m / b` to the nearest integer (ties to even) by integer
arithmetic: the floor of `√m / b` is `Nat.sqrt m / b`, and the tie analysis
against `floor + 1/2` compares `4·m` with `b²·(2·floor + 1)²`. -/
def sqrtRoundAux (m b : ℕ) : ℤ :=
  if 4 * m < b ^ 2 * (2 * (Nat.sqrt m / b) + 1) ^ 2 then (Nat.sqrt m / b : ℕ)
  else if b ^ 2 * (2 * (Nat.sqrt m / b) + 1) ^ 2 < 4 * m then
    ((Nat.sqrt m / b : ℕ) : ℤ) + 1
  else if 2 ∣ (Nat.sqrt m / b) then ((Nat.sqrt m / b : ℕ) : ℤ)
  else ((Nat.sqrt m / b : ℕ) : ℤ) + 1

/-- `pyRoundR (Real.sqrt q)` computed purely by integer arithmetic, via
`√(a/b) = √(a·b)/b`. -/
def sqrtRound (q : ℚ) : ℤ := sqrtRoundAux (q.num.toNat * q.den) q.den

/-- Python's `round(math.sqrt(q), 2)` on an exact rational input, as a
computable rational. -/
def roundSqrt2 (q : ℚ) : ℚ := (sqrtRound (10000 * q) : ℚ) / 100

theorem pyRoundR_intCast (n : ℤ) : pyRoundR (n : ℝ) = n := by
  unfold pyRoundR
  norm_num

theorem pyRound_intCast (n : ℤ) : pyRound (n : ℚ) = n := by
  unfold pyRound
  norm_num

theorem sqrtRoundAux_eq (m b : ℕ) (hb : 0 < b) :
    sqrtRoundAux m b = pyRoundR (Real.sqrt (m : ℝ) / (b : ℝ)) := by
  have hbR : (0 : ℝ) < (b : ℝ) := by exact_mod_cast hb
  set s : ℕ := Nat.sqrt m with hs
  set f : ℕ := s / b with hf
  have hsle : (s : ℝ) ≤ Real.sqrt (m : ℝ) := Real.nat_sqrt_le_real_sqrt
  have hslt : Real.sqrt (m : ℝ) < (s : ℝ) + 1 := Real.real_sqrt_lt_nat_sqrt_succ
  have hfb : f * b ≤ s := Nat.div_mul_le_self s b
  have hsb : s + 1 ≤ (f + 1) * b :=
    Nat.succ_le_of_lt ((Nat.div_lt_iff_lt_mul hb).mp (Nat.lt_succ_self (s / b)))
  have hfloor : ⌊Real.sqrt (m : ℝ) / (b : ℝ)⌋ = (f : ℤ) := by
    rw [Int.floor_eq_iff]
    constructor
    · rw [le_div_iff₀ hbR]
      calc ((f : ℤ) : ℝ) * (b : ℝ) = ((f * b : ℕ) : ℝ) := by push_cast; ring
      _ ≤ (s : ℝ) := by exact_mod_cast hfb
      _ ≤ Real.sqrt (m : ℝ) := hsle
    · rw [div_lt_iff₀ hbR]
      calc Real.sqrt (m : ℝ) < (s : ℝ) + 1 := hslt
      _ ≤ (((f + 1) * b : ℕ) : ℝ) := by exact_mod_cast hsb
      _ = (((f : ℤ) : ℝ) + 1) * (b : ℝ) := by push_cast; ring
  have hform : ((f : ℤ) : ℝ) + 1/2 = ((b * (2 * f + 1) : ℕ) : ℝ) / 2 / (b : ℝ) := by
    push_cast
    field_simp
    ring
  have hlt : Real.sqrt (m : ℝ) / (b : ℝ) < ((f : ℤ) : ℝ) + 1/2
      ↔ 4 * m < b ^ 2 * (2 * f + 1) ^ 2 := by
    rw [hform, div_lt_div_iff_of_pos_right hbR, Real.sqrt_lt' (by positivity),
      show (((b * (2 * f + 1) : ℕ) : ℝ) / 2) ^ 2
        = ((b ^ 2 * (2 * f + 1) ^ 2 : ℕ) : ℝ) / 4 by push_cast; ring,
      lt_div_iff₀ (by norm_num : (0:ℝ) < 4),
      show ((m : ℕ) : ℝ) * 4 = ((4 * m : ℕ) : ℝ) by push_cast; ring]
    exact Nat.cast_lt
  have hgt : ((f : ℤ) : ℝ) + 1/2 < Real.sqrt (m : ℝ) / (b : ℝ)
      ↔ b ^ 2 * (2 * f + 1) ^ 2 < 4 * m := by
    rw [hform, div_lt_div_iff_of_pos_right hbR, Real.lt_sqrt (by positivity),
      show (((b * (2 * f + 1) : ℕ) : ℝ) / 2) ^ 2
        = ((b ^ 2 * (2 * f + 1) ^ 2 : ℕ) : ℝ) / 4 by push_cast; ring,
      div_lt_iff₀ (by norm_num : (0:ℝ) < 4),
      show ((m : ℕ) : ℝ) * 4 = ((4 * m : ℕ) : ℝ) by push_cast; ring]
    exact Nat.cast_lt
  unfold sqrtRoundAux pyRoundR
  rw [← hs, ← hf, hfloor]
  have hfr : Real.sqrt (m : ℝ) / (b : ℝ) - ((f : ℤ) : ℝ) < 1/2
      ↔ 4 * m < b ^ 2 * (2 * f + 1) ^ 2 := by
    rw [sub_lt_iff_lt_add, add_comm]
    exact hlt
  have hfr' : (1:ℝ)/2 < Real.sqrt (m : ℝ) / (b : ℝ) - ((f : ℤ) : ℝ)
      ↔ b ^ 2 * (2 * f + 1) ^ 2 < 4 * m := by
    rw [lt_sub_iff_add_lt, add_comm]
    exact hgt
  rcases Nat.lt_trichotomy (4 * m) (b ^ 2 * (2 * f + 1) ^ 2) with h | h | h
  · rw [if_pos h, if_pos (hfr.mpr h)]
  · have h1 : ¬ 4 * m < b ^ 2 * (2 * f + 1) ^ 2 := by omega
    have h2 : ¬ b ^ 2 * (2 * f + 1) ^ 2 < 4 * m := by omega
    have h3 : ¬ Real.sqrt (m : ℝ) / (b : ℝ) - ((f : ℤ) : ℝ) < 1/2 := by
      rw [hfr]; exact h1
    have h4 : ¬ (1:ℝ)/2 < Real.sqrt (m : ℝ) / (b : ℝ) - ((f : ℤ) : ℝ) := by
      rw [hfr']; exact h2
    rw [if_neg h1, if_neg h2, if_neg h3, if_neg h4]
    have hdvd : (2 ∣ f) ↔ (2 ∣ (f : ℤ)) := by exact_mod_cast Iff.rfl
    by_cases he : 2 ∣ f
    · rw [if_pos he, if_pos (hdvd.mp he)]
    · rw [if_neg he, if_neg (fun hx => he (hdvd.mpr hx))]
  · have h1 : ¬ 4 * m < b ^ 2 * (2 * f + 1) ^ 2 := by omega
    have h3 : ¬ Real.sqrt (m : ℝ) / (b : ℝ) - ((f : ℤ) : ℝ) < 1/2 := by
      rw [hfr]; exact h1
    rw [if_neg h1, if_pos h, if_neg h3, if_pos (hfr'.mpr h)]

/-- The integer-arithmetic implementation `sqrtRound` agrees with rounding the
real square root. -/
theorem sqrtRound_eq (q : ℚ) (hq : 0 ≤ q) :
    sqrtRound q = pyRoundR (Real.sqrt (q : ℝ)) := by
  have hb : 0 < q.den := q.pos
  have hbR : (0 : ℝ) < (q.den : ℝ) := by exact_mod_cast hb
  have hnn : ((q.num.toNat : ℕ) : ℤ) = q.num :=
    Int.toNat_of_nonneg (Rat.num_nonneg.mpr hq)
  have hnum : ((q.num.toNat : ℕ) : ℝ) = ((q.num : ℤ) : ℝ) := by
    exact_mod_cast congrArg (fun z : ℤ => (z : ℝ)) hnn
  have hcast : (q : ℝ) = ((q.num.toNat * q.den : ℕ) : ℝ) / ((q.den : ℕ) : ℝ) ^ 2 := by
    rw [Rat.cast_def]
    push_cast
    rw [hnum]
    field_simp
    ring
  have hsqrt : Real.sqrt (q : ℝ)
      = Real.sqrt ((q.num.toNat * q.den : ℕ) : ℝ) / ((q.den : ℕ) : ℝ) := by
    rw [hcast, Real.sqrt_div (by positivity) _, Real.sqrt_sq hbR.le]
  rw [sqrtRound, hsqrt, sqrtRoundAux_eq _ _ hb]

/-- `roundSqrt2` agrees with the real-valued specification
`round(100·√q)/100`. -/
theorem roundSqrt2_eq (q : ℚ) (hq : 0 ≤ q) :
    (roundSqrt2 q : ℝ) = (pyRoundR (100 * Real.sqrt (q : ℝ)) : ℝ) / 100 := by
  unfold roundSqrt2
  have h1 : sqrtRound (10000 * q) = pyRoundR (Real.sqrt ((10000 * q : ℚ) : ℝ)) :=
    sqrtRound_eq _ (by positivity)
  have h2 : Real.sqrt ((10000 * q : ℚ) : ℝ) = 100 * Real.sqrt (q : ℝ) := by
    push_cast
    rw [show (10000 : ℝ) = 100 ^ 2 by norm_num,
      Real.sqrt_mul (by positivity) ((q : ℚ) : ℝ),
      Real.sqrt_sq (by norm_num : (0:ℝ) ≤ 100)]
  rw [h1, h2]
  push_cast
  ring

/-! ### Data model (`rating.py`)

A `Game` is one `GameResult`: the opponent is identified by index into the
section's player list (Python stores an object reference; references within
one section correspond to indices).  A `Player` carries exactly the fields of
`rating.Player` that the rating computation reads or writes; dates are plain
integers (days). -/

/-- One game result of one player: round number, opponent index within the
section, own score and opponent score (`GameResult` in `rating.py`). -/
structure Game where
  round : ℕ
  opp : ℕ
  score : ℤ
  oppScore : ℤ
deriving DecidableEq, Repr

instance : Inhabited Game := ⟨⟨0, 0, 0, 0⟩⟩

/-- The fields of `rating.Player` used by the ratings computation. -/
structure Player where
  name : String
  init_rating : ℚ
  init_rating_deviation : ℚ
  career_games : ℕ
  is_unrated : Bool
  new_rating : ℚ
  new_rating_deviation : ℚ
  wins : ℚ
  losses : ℚ
  spread : ℤ
  games : List Game
deriving DecidableEq, Repr

instance : Inhabited Player :=
  ⟨⟨"", 0, 0, 0, false, 0, 0, 0, 0, 0, []⟩⟩

/-- `MAX_DEVIATION` from `rating.py`. -/
def MAX_DEVIATION : ℚ := 150

/-- `UNRATED_INIT_RATING` from `rating.py`. -/
def UNRATED_INIT_RATING : ℚ := 1500

/-- `Player.set_init_rating(rating, dev)` (default `dev` is
`MAX_DEVIATION`): a rating below 100 is treated as a fake value for an
unrated player; a zero deviation is replaced by `MAX_DEVIATION` in
`init_rating_deviation` (but not in `new_rating_deviation`). -/
def setInitRating (p : Player) (rating dev : ℚ) : Player :=
  { p with
    init_rating := if rating < 100 then UNRATED_INIT_RATING else rating,
    is_unrated := if rating < 100 then true else p.is_unrated,
    init_rating_deviation := if dev = 0 then MAX_DEVIATION else dev,
    new_rating := rating,
    new_rating_deviation := dev }

/-- `RatingsCalculator._player_multiplier`. -/
def playerMultiplier (p : Player) : ℚ :=
  let base : ℚ :=
    if p.init_rating > 2000 then 1/2
    else if p.init_rating > 1800 then 3/4
    else 1
  if p.career_games < 200 then 1
  else if p.career_games > 1000 then 1/2
  else if p.career_games > 100 then min base (1 - (p.career_games : ℚ) / 1800)
  else base

/-- `tau` in `RatingsCalculator.calc_new_rating_for_player`. -/
def tau : ℚ := 90

/-- `beta` in `RatingsCalculator.calc_new_rating_for_player`. -/
def beta : ℚ := 5

/-- Opponent lookup: `g.opponent` resolved in the section's player list. -/
def oppOf (ps : List Player) (g : Game) : Player := ps.getD g.opp default

/-- The skip test in the game loop of `calc_new_rating_for_player`:
`opponent == player or g.opp_score == 0 or g.score == 0`. -/
def skipGame (i : ℕ) (g : Game) : Bool :=
  (g.opp == i) || (g.oppScore == 0) || (g.score == 0)

/-- The games considered for rating (`games` in the source): byes and
forfeits are skipped. -/
def countedGames (i : ℕ) (p : Player) : List Game :=
  p.games.filter (fun g => !(skipGame i g))

/-- `g_rho`: opponent uncertainty factor of one game. -/
def gameRho (ps : List Player) (g : Game) : ℚ :=
  beta ^ 2 * tau ^ 2 + (oppOf ps g).init_rating_deviation ^ 2

/-- `g_nu`: performance rating of one game. -/
def gameNu (ps : List Player) (g : Game) : ℚ :=
  (oppOf ps g).init_rating + beta * ((g.score : ℚ) - (g.oppScore : ℚ))

/-- `sum1 = Σ 1/rho` over the counted games. -/
def gamesSum1 (ps : List Player) (i : ℕ) (p : Player) : ℚ :=
  ((countedGames i p).map (fun g => 1 / gameRho ps g)).sum

/-- `sum2 = Σ nu/rho` over the counted games. -/
def gamesSum2 (ps : List Player) (i : ℕ) (p : Player) : ℚ :=
  ((countedGames i p).map (fun g => gameNu ps g / gameRho ps g)).sum

/-- `sigma_prime` in `calc_new_rating_for_player`. -/
def sigmaPrime (ps : List Player) (i : ℕ) (p : Player) : ℚ :=
  1 / (1 / p.init_rating_deviation ^ 2 + gamesSum1 ps i p)

/-- `mu_prime` before the multiplier adjustment. -/
def muPrime (ps : List Player) (i : ℕ) (p : Player) : ℚ :=
  sigmaPrime ps i p * (p.init_rating / p.init_rating_deviation ^ 2 + gamesSum2 ps i p)

/-- `mu_prime` after the multiplier adjustment:
`mu + (mu_prime - mu) * multiplier`. -/
def adjustedMuPrime (ps : List Player) (i : ℕ) (p : Player) : ℚ :=
  p.init_rating + (muPrime ps i p - p.init_rating) * playerMultiplier p

/-- `RatingsCalculator.calc_new_rating_for_player` on the player stored at
index `i` of the section list `ps`: sets `new_rating` to
`max(round(mu_prime), 300)` and `new_rating_deviation` to
`round(sqrt(sigma_prime), 2)`. -/
def calcNewRatingForPlayer (ps : List Player) (i : ℕ) (p : Player) : Player :=
  { p with
    new_rating := ((max (pyRound (adjustedMuPrime ps i p)) 300 : ℤ) : ℚ),
    new_rating_deviation := roundSqrt2 (sigmaPrime ps i p) }

/-! ### `RatingsCalculator.calc_initial_ratings` -/

/-- `EPS` in `calc_initial_ratings`. -/
def EPS : ℚ := 1/10000

/-- The seeding value computed at the top of `calc_initial_ratings`:
`sum(p.init_rating for p in section.get_rated_players())` divided by
`len(section.get_players())`, replaced by the manual seed 1500 when the
quotient is below 300. -/
def ratedOpponentAvg (ps : List Player) : ℚ :=
  let avg := ((ps.filter (fun p => !p.is_unrated)).map
    (fun p => p.init_rating)).sum / (ps.length : ℚ)
  if avg < 300 then 1500 else avg

/-- The re-seed test inside the loop: the player's opponents are collected
from all games; if some are unrated and their fraction is at least 0.4, the
player is re-seeded to the rated average before the update. -/
def reseedTest (ps : List Player) (p : Player) : Bool :=
  let opps := p.games.map (fun g => oppOf ps g)
  let unratedOpps := opps.filter (fun o => o.is_unrated)
  !unratedOpps.isEmpty &&
    decide ((unratedOpps.length : ℚ) / (opps.length : ℚ) ≥ 2/5)

/-- The body of the seeding loop for one unrated player at index `i`:
optional re-seed, record the prior, run the single-player update, compare
against `EPS`, and feed `new_rating` back via `set_init_rating` (whose
deviation argument defaults to `MAX_DEVIATION`).  Returns the new section
state and whether this player's rating moved by less than `EPS`. -/
def seedStep (avg : ℚ) (ps : List Player) (i : ℕ) : List Player × Bool :=
  let p0 := ps.getD i default
  let p1 := if reseedTest ps p0 then setInitRating p0 avg MAX_DEVIATION else p0
  let ps1 := ps.set i p1
  let pre := p1.init_rating
  let p2 := calcNewRatingForPlayer ps1 i p1
  let ps2 := ps1.set i p2
  let p3 := setInitRating p2 p2.new_rating MAX_DEVIATION
  (ps2.set i p3, decide (|pre - p2.new_rating| < EPS))

/-- The indices of `section.get_unrated_players()` in section order. -/
def unratedIdx (ps : List Player) : List ℕ :=
  (List.range ps.length).filter (fun i => (ps.getD i default).is_unrated)

/-- One iteration of the `while` loop: process every unrated player in
order, conjoining the convergence flags. -/
def seedSweep (avg : ℚ) (ps : List Player) : List Player × Bool :=
  (unratedIdx ps).foldl
    (fun acc i =>
      let r := seedStep avg acc.1 i
      (r.1, acc.2 && r.2))
    (ps, true)

/-- The `while not converged and iterations < MAX_ITERATIONS` loop, with the
remaining iteration budget as fuel (`MAX_ITERATIONS = 50`). -/
def seedLoop (avg : ℚ) : ℕ → List Player → List Player
  | 0, ps => ps
  | n+1, ps =>
    let r := seedSweep avg ps
    if r.2 then r.1 else seedLoop avg n r.1

/-- `RatingsCalculator.calc_initial_ratings` on a section state. -/
def calcInitialRatings (ps : List Player) : List Player :=
  seedLoop (ratedOpponentAvg ps) 50 ps

/-- The section state after exactly `n` sweeps of the seeding loop (used to
state how many iterations `calc_initial_ratings` performs). -/
def sweepIter (avg : ℚ) : ℕ → List Player → List Player
  | 0, ps => ps
  | n+1, ps => sweepIter avg n (seedSweep avg ps).1

/-! ### `Player.update_career_games`, `Player.adjust_initial_deviation`,
and the `all_rating.py` call into `Tournament.calc_ratings` -/

/-- The test `game.opponent != "Zz Bye"` in `Player.update_career_games`
compares a `Player` instance with a `str`; no `__eq__` is defined on
`Player`, so in Python the two are never equal and the test is always
`True`. -/
def oppNotZzByeStr (_g : Game) : Bool := true

/-- `Player.update_career_games` for the player stored at index `i`: one
career game per game whose opponent is not the player itself and which
passes the (vacuous) `!= "Zz Bye"` test. -/
def updateCareerGames (i : ℕ) (p : Player) : Player :=
  { p with career_games := p.career_games +
      (p.games.filter (fun g => !(g.opp == i) && oppNotZzByeStr g)).length }

/-- `Player.adjust_initial_deviation(tournament_date)` with
`days = (tournament_date - last_played).days` (which may be negative):
computes `min(sqrt(dev² + 10²·days), MAX_DEVIATION)`; when the radicand is
negative, `math.sqrt` raises `ValueError`, the `except` handler calls
`show_exception`, and that re-raises — modelled by `none`. -/
noncomputable def adjustInitialDeviation (dev : ℚ) (days : ℤ) : Option ℝ :=
  if 0 ≤ dev ^ 2 + 100 * (days : ℚ) then
    some (min (Real.sqrt ((dev : ℝ) ^ 2 + 100 * (days : ℝ))) 150)
  else none

/-- Number of parameters besides `self` in the definition
`def calc_ratings(self):` of `rating.Tournament` (`rating.py`). -/
def calcRatingsParamCount : ℕ := 0

/-- Number of positional arguments in the call `t.calc_ratings(_BETA)` made
by `all_rating.PlayerDB.process_one_tournament` (`all_rating.py`). -/
def calcRatingsCallArgCount : ℕ := 1

/-! ### Specification-side definitions

These restate, in the words of the specification and of the claims, the
quantities that the source computes; the claim theorems compare them with
the source-derived definitions above. -/

/-- Claim-side filter: the player's non-bye games, "games where the opponent
is not the player and neither score is 0". -/
def specCountedGames (i : ℕ) (p : Player) : List Game :=
  p.games.filter (fun g => !(g.opp == i) && !(g.score == 0) && !(g.oppScore == 0))

/-- Claim-side multiplier: base 0.5 for rating > 2000, 0.75 for > 1800, else
1.0; overridden to 1.0 for fewer than 200 career games, to 0.5 above 1000,
and to `min(base, 1 - careerGames/1800)` for 200..1000 career games. -/
def specMultiplier (p : Player) : ℚ :=
  let base : ℚ :=
    if p.init_rating > 2000 then 1/2
    else if p.init_rating > 1800 then 3/4
    else 1
  if p.career_games < 200 then 1
  else if p.career_games > 1000 then 1/2
  else min base (1 - (p.career_games : ℚ) / 1800)

/-- Claim-side seeding value: the arithmetic mean of `init_rating` over the
rated players of the section, replaced by 1500 when below 300. -/
def specRatedMeanSeed (ps : List Player) : ℚ :=
  let rated := ps.filter (fun p => !p.is_unrated)
  let mean := (rated.map (fun p => p.init_rating)).sum / (rated.length : ℚ)
  if mean < 300 then 1500 else mean

/-- Claim-side `sum1 = Σ 1/rho_g` with
`rho_g = beta²·tau² + opponentDeviation²`, `tau = 90`, `beta = 5.0`. -/
def specSum1 (ps : List Player) (i : ℕ) (p : Player) : ℚ :=
  ((specCountedGames i p).map
    (fun g => 1 / ((5:ℚ) ^ 2 * 90 ^ 2 + (oppOf ps g).init_rating_deviation ^ 2))).sum

/-- Claim-side `sum2 = Σ nu_g/rho_g` with
`nu_g = opponentRating + beta·spread_g`. -/
def specSum2 (ps : List Player) (i : ℕ) (p : Player) : ℚ :=
  ((specCountedGames i p).map
    (fun g => ((oppOf ps g).init_rating + 5 * ((g.score : ℚ) - (g.oppScore : ℚ)))
      / ((5:ℚ) ^ 2 * 90 ^ 2 + (oppOf ps g).init_rating_deviation ^ 2))).sum

/-- Claim-side `sigmaPrime = 1/(1/priorDeviation² + sum1)`. -/
def specSigmaPrime (ps : List Player) (i : ℕ) (p : Player) : ℚ :=
  1 / (1 / p.init_rating_deviation ^ 2 + specSum1 ps i p)

/-- Claim-side `muPrime = sigmaPrime·(priorRating/priorDeviation² + sum2)`. -/
def specMuPrime (ps : List Player) (i : ℕ) (p : Player) : ℚ :=
  specSigmaPrime ps i p *
    (p.init_rating / p.init_rating_deviation ^ 2 + specSum2 ps i p)

/-- Claim-side
`newRating = max(round(priorRating + (muPrime - priorRating)·multiplier), 300)`. -/
def specNewRating (ps : List Player) (i : ℕ) (p : Player) : ℚ :=
  ((max (pyRound (p.init_rating
    + (specMuPrime ps i p - p.init_rating) * specMultiplier p)) 300 : ℤ) : ℚ)

/-! ### Concrete section states used by witnesses and counterexamples -/

/-- A fresh unrated player (`Player.new_unrated`) with the given games. -/
def newUnrated (name : String) (cg : ℕ) (gs : List Game) : Player :=
  { name := name, init_rating := UNRATED_INIT_RATING,
    init_rating_deviation := MAX_DEVIATION, career_games := cg,
    is_unrated := true, new_rating := UNRATED_INIT_RATING,
    new_rating_deviation := MAX_DEVIATION, wins := 0, losses := 0,
    spread := 0, games := gs }

/-- The eight alice/becky scores of the repository's own test
(`tests/test_rating.py`), alice's score first. -/
def abScores : List (ℤ × ℤ) :=
  [(400, 300), (200, 450), (500, 450), (300, 300),
   (600, 300), (350, 500), (250, 400), (350, 300)]

/-- Alice's games against becky (opponent index 1). -/
def aliceGames : List Game :=
  (List.range 8).map (fun r =>
    { round := r + 1, opp := 1,
      score := (abScores.getD r (0, 0)).1,
      oppScore := (abScores.getD r (0, 0)).2 })

/-- Becky's games against alice (opponent index 0). -/
def beckyGames : List Game :=
  (List.range 8).map (fun r =>
    { round := r + 1, opp := 0,
      score := (abScores.getD r (0, 0)).2,
      oppScore := (abScores.getD r (0, 0)).1 })

/-- The all-unrated two-player section of the repository's test. -/
def aliceBecky : List Player :=
  [newUnrated "alice" 8 aliceGames, newUnrated "becky" 8 beckyGames]

/-- An unrated player whose deviation 80 came from a ratings-file row with a
rating below 100 (such a row forces `is_unrated` while keeping the parsed
deviation), paired with a rated opponent. -/
def umaRob : List Player :=
  [{ name := "uma", init_rating := 1500, init_rating_deviation := 80,
     career_games := 1, is_unrated := true, new_rating := 1500,
     new_rating_deviation := 80, wins := 1, losses := 0, spread := 100,
     games := [{ round := 1, opp := 1, score := 400, oppScore := 300 }] },
   { name := "rob", init_rating := 1700, init_rating_deviation := 150,
     career_games := 500, is_unrated := false, new_rating := 1700,
     new_rating_deviation := 150, wins := 0, losses := 1, spread := -100,
     games := [{ round := 1, opp := 0, score := 300, oppScore := 400 }] }]

/-- A section with one rated and one unrated player (used for claim C2). -/
def oneRatedSection : List Player :=
  [{ name := "vera", init_rating := 2000, init_rating_deviation := 150,
     career_games := 300, is_unrated := false, new_rating := 2000,
     new_rating_deviation := 150, wins := 0, losses := 0, spread := 0,
     games := [{ round := 1, opp := 1, score := 400, oppScore := 350 }] },
   newUnrated "walt" 1 [{ round := 1, opp := 0, score := 350, oppScore := 400 }]]

/-- A player with a 200 rating from a ratings file and no games this
tournament. -/
def restingPlayer : Player :=
  { name := "randy", init_rating := 200, init_rating_deviation := 150,
    career_games := 40, is_unrated := false, new_rating := 200,
    new_rating_deviation := 150, wins := 0, losses := 0, spread := 0,
    games := [] }

/-- A player whose only game is against the placeholder player
"Zz Bye" (stored at index 1 of `zzByeSection`). -/
def zzByeVictim : Player :=
  { name := "hero", init_rating := 1600, init_rating_deviation := 150,
    career_games := 0, is_unrated := false, new_rating := 1600,
    new_rating_deviation := 150, wins := 1, losses := 0, spread := 50,
    games := [{ round := 1, opp := 1, score := 50, oppScore := 0 }] }

/-- The section containing `zzByeVictim` and the bye placeholder. -/
def zzByeSection : List Player :=
  [zzByeVictim,
   { name := "Zz Bye", init_rating := 1500, init_rating_deviation := 150,
     career_games := 0, is_unrated := false, new_rating := 1500,
     new_rating_deviation := 150, wins := 0, losses := 1, spread := -50,
     games := [{ round := 1, opp := 0, score := 0, oppScore := 50 }] }]

/-- A section of two rated players (used by the claim C2 witness). -/
def bothRatedSection : List Player :=
  [{ name := "vera", init_rating := 2000, init_rating_deviation := 150,
     career_games := 300, is_unrated := false, new_rating := 2000,
     new_rating_deviation := 150, wins := 0, losses := 0, spread := 0,
     games := [{ round := 1, opp := 1, score := 400, oppScore := 350 }] },
   { name := "xena", init_rating := 1600, init_rating_deviation := 120,
     career_games := 250, is_unrated := false, new_rating := 1600,
     new_rating_deviation := 120, wins := 0, losses := 0, spread := 0,
     games := [{ round := 1, opp := 0, score := 350, oppScore := 400 }] }]

/-- A rated player with an integer rating of at least 300, a deviation that
is a positive multiple of 1/100, and no games this tournament (used by the
claim C4 witness). -/
def idlePlayer : Player :=
  { name := "larry", init_rating := 1500, init_rating_deviation := 150,
    career_games := 40, is_unrated := false, new_rating := 1500,
    new_rating_deviation := 150, wins := 0, losses := 0, spread := 0,
    games := [] }

/-!
## Helper lemmas
-/

theorem specCountedGames_eq (i : ℕ) (p : Player) :
    specCountedGames i p = countedGames i p := by
  unfold specCountedGames countedGames
  apply List.filter_congr
  intro g _
  unfold skipGame
  cases h1 : (g.opp == i) <;> cases h2 : (g.score == 0) <;>
    cases h3 : (g.oppScore == 0) <;> simp [h1, h2, h3]

theorem specSum1_eq (ps : List Player) (i : ℕ) (p : Player) :
    specSum1 ps i p = gamesSum1 ps i p := by
  unfold specSum1 gamesSum1 gameRho beta tau
  rw [specCountedGames_eq]

theorem specSum2_eq (ps : List Player) (i : ℕ) (p : Player) :
    specSum2 ps i p = gamesSum2 ps i p := by
  unfold specSum2 gamesSum2 gameNu gameRho beta tau
  rw [specCountedGames_eq]

theorem specSigmaPrime_eq (ps : List Player) (i : ℕ) (p : Player) :
    specSigmaPrime ps i p = sigmaPrime ps i p := by
  unfold specSigmaPrime sigmaPrime
  rw [specSum1_eq]

theorem specMuPrime_eq (ps : List Player) (i : ℕ) (p : Player) :
    specMuPrime ps i p = muPrime ps i p := by
  unfold specMuPrime muPrime
  rw [specSigmaPrime_eq, specSum2_eq]

theorem specMultiplier_eq (p : Player) :
    specMultiplier p = playerMultiplier p := by
  unfold specMultiplier playerMultiplier
  by_cases h1 : p.career_games < 200
  · simp [h1]
  · by_cases h2 : p.career_games > 1000
    · simp [h1, h2]
    · have h3 : p.career_games > 100 := by omega
      simp [h1, h2, h3]

theorem specNewRating_eq (ps : List Player) (i : ℕ) (p : Player) :
    specNewRating ps i p
      = ((max (pyRound (adjustedMuPrime ps i p)) 300 : ℤ) : ℚ) := by
  unfold specNewRating adjustedMuPrime
  rw [specMuPrime_eq, specMultiplier_eq]

theorem sigmaPrime_nonneg (ps : List Player) (i : ℕ) (p : Player) :
    0 ≤ sigmaPrime ps i p := by
  unfold sigmaPrime
  apply one_div_nonneg.mpr
  apply add_nonneg
  · positivity
  · unfold gamesSum1
    apply List.sum_nonneg
    intro x hx
    rw [List.mem_map] at hx
    obtain ⟨g, _, rfl⟩ := hx
    have : 0 ≤ gameRho ps g := by unfold gameRho; positivity
    positivity

/-- The state component of one sweep, as a fold over the processed
indices. -/
def sweepStates (avg : ℚ) (idxs : List ℕ) (s : List Player) : List Player :=
  idxs.foldl (fun t i => (seedStep avg t i).1) s

theorem getD_set_self (l : List Player) (i : ℕ) (a d : Player)
    (h : i < l.length) : (l.set i a).getD i d = a := by
  rw [List.getD_eq_getElem?_getD, List.getElem?_set_self h]
  rfl

theorem seedStep_length (avg : ℚ) (s : List Player) (i : ℕ) :
    ((seedStep avg s i).1).length = s.length := by
  unfold seedStep
  simp

theorem seedStep_getD_ne (avg : ℚ) (s : List Player) (j i : ℕ) (h : j ≠ i)
    (d : Player) : ((seedStep avg s j).1).getD i d = s.getD i d := by
  unfold seedStep
  simp only [List.getD_eq_getElem?_getD, List.getElem?_set_ne h]

theorem seedStep_getD_self (avg : ℚ) (s : List Player) (i : ℕ)
    (hlen : i < s.length) (hu : (s.getD i default).is_unrated = true) :
    (((seedStep avg s i).1).getD i default).init_rating_deviation = MAX_DEVIATION ∧
    (((seedStep avg s i).1).getD i default).new_rating_deviation = MAX_DEVIATION ∧
    (((seedStep avg s i).1).getD i default).is_unrated = true := by
  unfold seedStep
  rw [getD_set_self _ _ _ _ (by simpa using hlen)]
  generalize s.getD i default = p0 at hu ⊢
  refine ⟨by simp [setInitRating, MAX_DEVIATION], rfl, ?_⟩
  by_cases hr : reseedTest s p0 <;> by_cases ha : avg < 100 <;>
    simp [hr, ha, setInitRating, calcNewRatingForPlayer, hu]

theorem sweepStates_length (avg : ℚ) (idxs : List ℕ) (s : List Player) :
    (sweepStates avg idxs s).length = s.length := by
  induction idxs generalizing s with
  | nil => rfl
  | cons j rest ih =>
    show (sweepStates avg rest ((seedStep avg s j).1)).length = _
    rw [ih, seedStep_length]

theorem sweepStates_getD_notmem (avg : ℚ) (idxs : List ℕ) (s : List Player)
    (i : ℕ) (h : i ∉ idxs) (d : Player) :
    (sweepStates avg idxs s).getD i d = s.getD i d := by
  induction idxs generalizing s with
  | nil => rfl
  | cons j rest ih =>
    show (sweepStates avg rest ((seedStep avg s j).1)).getD i d = _
    rw [ih _ (fun hm => h (List.mem_cons_of_mem j hm)),
      seedStep_getD_ne avg s j i (fun he => h (he ▸ List.mem_cons_self j rest))]

theorem sweepStates_getD_mem (avg : ℚ) (idxs : List ℕ) (s : List Player)
    (i : ℕ) (hnd : idxs.Nodup) (hmem : i ∈ idxs) (hlen : i < s.length)
    (hu : (s.getD i default).is_unrated = true) :
    ((sweepStates avg idxs s).getD i default).init_rating_deviation = MAX_DEVIATION ∧
    ((sweepStates avg idxs s).getD i default).new_rating_deviation = MAX_DEVIATION ∧
    ((sweepStates avg idxs s).getD i default).is_unrated = true := by
  induction idxs generalizing s with
  | nil => cases hmem
  | cons j rest ih =>
    have hnd' := (List.nodup_cons.mp hnd).2
    have hjrest := (List.nodup_cons.mp hnd).1
    rcases List.mem_cons.mp hmem with rfl | hmem'
    · rw [show sweepStates avg (i :: rest) s
          = sweepStates avg rest ((seedStep avg s i).1) from rfl,
        sweepStates_getD_notmem avg rest _ i hjrest]
      exact seedStep_getD_self avg s i hlen hu
    · have hij : j ≠ i := fun he => hjrest (he ▸ hmem')
      rw [show sweepStates avg (j :: rest) s
          = sweepStates avg rest ((seedStep avg s j).1) from rfl]
      exact ih ((seedStep avg s j).1) hnd' hmem'
        (by rw [seedStep_length]; exact hlen)
        (by rw [seedStep_getD_ne avg s j i hij]; exact hu)

theorem seedSweep_fst (avg : ℚ) (s : List Player) :
    (seedSweep avg s).1 = sweepStates avg (unratedIdx s) s := by
  unfold seedSweep sweepStates
  generalize unratedIdx s = idxs
  suffices h : ∀ (idxs : List ℕ) (st : List Player) (b : Bool),
      (idxs.foldl (fun acc i =>
        let r := seedStep avg acc.1 i
        (r.1, acc.2 && r.2)) (st, b)).1
      = idxs.foldl (fun t i => (seedStep avg t i).1) st from h idxs s true
  intro idxs
  induction idxs with
  | nil => intro st b; rfl
  | cons j rest ih => intro st b; exact ih _ _

theorem seedSweep_length (avg : ℚ) (s : List Player) :
    ((seedSweep avg s).1).length = s.length := by
  rw [seedSweep_fst]
  exact sweepStates_length avg _ s

theorem seedSweep_unrated_dev (avg : ℚ) (s : List Player) (i : ℕ)
    (hlen : i < s.length) (hu : (s.getD i default).is_unrated = true) :
    (((seedSweep avg s).1).getD i default).init_rating_deviation = MAX_DEVIATION ∧
    (((seedSweep avg s).1).getD i default).new_rating_deviation = MAX_DEVIATION ∧
    (((seedSweep avg s).1).getD i default).is_unrated = true := by
  rw [seedSweep_fst]
  apply sweepStates_getD_mem avg (unratedIdx s) s i
  · exact List.Nodup.filter _ (List.nodup_range _)
  · exact List.mem_filter.mpr ⟨List.mem_range.mpr hlen, hu⟩
  · exact hlen
  · exact hu

theorem seedLoop_unrated_dev (avg : ℚ) (fuel : ℕ) (s : List Player) (i : ℕ)
    (hf : 1 ≤ fuel) (hlen : i < s.length)
    (hu : (s.getD i default).is_unrated = true) :
    ((seedLoop avg fuel s).getD i default).init_rating_deviation = MAX_DEVIATION ∧
    ((seedLoop avg fuel s).getD i default).new_rating_deviation = MAX_DEVIATION ∧
    ((seedLoop avg fuel s).getD i default).is_unrated = true := by
  induction fuel generalizing s with
  | zero => omega
  | succ n ih =>
    show ((if (seedSweep avg s).2 then (seedSweep avg s).1
        else seedLoop avg n (seedSweep avg s).1).getD i default).init_rating_deviation
        = MAX_DEVIATION ∧
      ((if (seedSweep avg s).2 then (seedSweep avg s).1
        else seedLoop avg n (seedSweep avg s).1).getD i default).new_rating_deviation
        = MAX_DEVIATION ∧
      ((if (seedSweep avg s).2 then (seedSweep avg s).1
        else seedLoop avg n (seedSweep avg s).1).getD i default).is_unrated = true
    by_cases hc : (seedSweep avg s).2
    · rw [if_pos hc]
      exact seedSweep_unrated_dev avg s i hlen hu
    · rw [if_neg hc]
      cases n with
      | zero =>
        show ((seedSweep avg s).1.getD i default).init_rating_deviation = _ ∧ _
        exact seedSweep_unrated_dev avg s i hlen hu
      | succ m =>
        have h := seedSweep_unrated_dev avg s i hlen hu
        exact ih ((seedSweep avg s).1) (by omega)
          (by rw [seedSweep_length]; exact hlen) h.2.2

theorem seedLoop_iter (avg : ℚ) (fuel : ℕ) (s : List Player) (hf : 1 ≤ fuel) :
    ∃ n, 1 ≤ n ∧ n ≤ fuel ∧ seedLoop avg fuel s = sweepIter avg n s := by
  induction fuel generalizing s with
  | zero => omega
  | succ m ih =>
    by_cases hc : (seedSweep avg s).2
    · refine ⟨1, le_refl 1, by omega, ?_⟩
      show (if (seedSweep avg s).2 then (seedSweep avg s).1
        else seedLoop avg m (seedSweep avg s).1) = _
      rw [if_pos hc]
      rfl
    · cases m with
      | zero =>
        refine ⟨1, le_refl 1, by omega, ?_⟩
        show (if (seedSweep avg s).2 then (seedSweep avg s).1
          else seedLoop avg 0 (seedSweep avg s).1) = _
        rw [if_neg hc]
        rfl
      | succ k =>
        obtain ⟨n, h1, h2, h3⟩ := ih ((seedSweep avg s).1) (by omega)
        refine ⟨n + 1, by omega, by omega, ?_⟩
        show (if (seedSweep avg s).2 then (seedSweep avg s).1
          else seedLoop avg (k+1) (seedSweep avg s).1) = _
        rw [if_neg hc, h3]
        rfl

/-!
## Claim theorems
-/

/-- Claim C1: for every player whose `priorDeviation` is positive,
`calc_new_rating_for_player` computes, over exactly the player's non-bye
games (opponent not the player, neither score 0), `rho_g = beta²·tau² +
opponentDeviation²` and `nu_g = opponentRating + beta·spread_g` with
`tau = 90`, `beta = 5.0`, then `sum1 = Σ 1/rho_g`, `sum2 = Σ nu_g/rho_g`,
`sigmaPrime = 1/(1/priorDeviation² + sum1)`,
`muPrime = sigmaPrime·(priorRating/priorDeviation² + sum2)`, and sets
`newRating = max(round(priorRating + (muPrime - priorRating)·multiplier),
300)` and `newDeviation = round(sqrt(sigmaPrime), 2)`, with the multiplier
determined by the prior rating band and the career-games overrides. -/
theorem claim1_single_player_update (ps : List Player) (i : ℕ) (p : Player)
    (_hdev : 0 < p.init_rating_deviation) :
    (calcNewRatingForPlayer ps i p).new_rating = specNewRating ps i p ∧
    ((calcNewRatingForPlayer ps i p).new_rating_deviation : ℝ)
      = (pyRoundR (100 * Real.sqrt ((specSigmaPrime ps i p : ℚ) : ℝ)) : ℝ) / 100 := by
  constructor
  · rw [specNewRating_eq]
    rfl
  · show ((roundSqrt2 (sigmaPrime ps i p) : ℚ) : ℝ) = _
    rw [specSigmaPrime_eq]
    exact roundSqrt2_eq _ (sigmaPrime_nonneg ps i p)

/-- Witness for claim C1 at a concrete input: the unrated player `uma` with
deviation 80 facing the rated player `rob`. -/
theorem claim1_witness :
    (0:ℚ) < (umaRob.getD 0 default).init_rating_deviation ∧
    ((calcNewRatingForPlayer umaRob 0 (umaRob.getD 0 default)).new_rating
        = specNewRating umaRob 0 (umaRob.getD 0 default) ∧
      ((calcNewRatingForPlayer umaRob 0 (umaRob.getD 0 default)).new_rating_deviation : ℝ)
        = (pyRoundR (100 * Real.sqrt
            ((specSigmaPrime umaRob 0 (umaRob.getD 0 default) : ℚ) : ℝ)) : ℝ) / 100) :=
  ⟨by decide, claim1_single_player_update umaRob 0 (umaRob.getD 0 default) (by decide)⟩

/-- Counterexample to claim C2: in a section with one rated player (rating
2000) and one unrated player, the code's seeding value divides the rated sum
by the number of all section players (2000/2 = 1000), not by the number of
rated players (2000/1 = 2000). -/
theorem claim2_counterexample :
    ratedOpponentAvg oneRatedSection ≠ specRatedMeanSeed oneRatedSection := by
  decide

/-- Claim C2 (amended): the seeding value is the sum of rated players'
prior ratings divided by the number of ALL section players (thresholded at
300 to the manual seed 1500); it coincides with the rated-player mean when
every section player is rated, and it is the manual seed 1500 whenever the
section has no rated player (in particular in an all-unrated section). -/
theorem claim2_amended (ps : List Player) :
    (ps ≠ [] → (∀ p ∈ ps, p.is_unrated = false) →
      ratedOpponentAvg ps = specRatedMeanSeed ps) ∧
    (ps ≠ [] → (∀ p ∈ ps, p.is_unrated = true) →
      ratedOpponentAvg ps = 1500) := by
  constructor
  · intro _ hall
    have hfilter : ps.filter (fun p => !p.is_unrated) = ps :=
      List.filter_eq_self.mpr (fun a ha => by rw [hall a ha]; rfl)
    simp only [ratedOpponentAvg, specRatedMeanSeed]
    rw [hfilter]
  · intro _ hall
    have hfilter : ps.filter (fun p => !p.is_unrated) = [] :=
      List.filter_eq_nil_iff.mpr (fun a ha => by rw [hall a ha]; simp)
    simp only [ratedOpponentAvg]
    rw [hfilter]
    norm_num

/-- Witness for claim C2 at a concrete input: a section of two rated
players. -/
theorem claim2_witness :
    bothRatedSection ≠ [] ∧ (∀ p ∈ bothRatedSection, p.is_unrated = false) ∧
    ratedOpponentAvg bothRatedSection = specRatedMeanSeed bothRatedSection :=
  ⟨by decide, by decide,
    (claim2_amended bothRatedSection).1 (by decide) (by decide)⟩

/-- Counterexample to claim C4: a player with prior rating 200 (a ratings
file may carry any rating from 100 upward) and no games this tournament gets
`newRating = max(round(200), 300) = 300 ≠ 200`: the update is not a no-op. -/
theorem claim4_counterexample :
    specCountedGames 0 restingPlayer = [] ∧
    (calcNewRatingForPlayer [] 0 restingPlayer).new_rating
      ≠ restingPlayer.init_rating := by
  decide

/-- Claim C4 (amended): for a player with zero counted games,
`sum1 = sum2 = 0`, so `sigmaPrime = priorDeviation²` and
`muPrime = priorRating`; hence `newRating = max(round(priorRating), 300)`
and `newDeviation = round(priorDeviation, 2)`; when the prior rating is an
integer at least 300 and the prior deviation is a positive integer multiple
of 1/100, these equal the prior values exactly. -/
theorem claim4_amended (ps : List Player) (i : ℕ) (p : Player) (k d : ℤ)
    (hG : specCountedGames i p = [])
    (hk : p.init_rating = (k : ℚ)) (hk3 : 300 ≤ k)
    (hd : p.init_rating_deviation = (d : ℚ) / 100) (hd0 : 0 < d) :
    (calcNewRatingForPlayer ps i p).new_rating = p.init_rating ∧
    (calcNewRatingForPlayer ps i p).new_rating_deviation
      = p.init_rating_deviation := by
  have hG' : countedGames i p = [] := by rw [← specCountedGames_eq, hG]
  have hdQ : (0:ℚ) < (d : ℚ) := by exact_mod_cast hd0
  have hdev : (0:ℚ) < p.init_rating_deviation := by
    rw [hd]; exact div_pos hdQ (by norm_num)
  have hne : p.init_rating_deviation ≠ 0 := ne_of_gt hdev
  have hσ : sigmaPrime ps i p = p.init_rating_deviation ^ 2 := by
    unfold sigmaPrime gamesSum1
    rw [hG']
    simp [one_div_one_div]
  have hμ : muPrime ps i p = p.init_rating := by
    unfold muPrime gamesSum2
    rw [hG', hσ]
    simp only [List.map_nil, List.sum_nil, add_zero]
    rw [mul_comm, div_mul_cancel₀ _ (pow_ne_zero 2 hne)]
  have hadj : adjustedMuPrime ps i p = (k : ℚ) := by
    unfold adjustedMuPrime
    rw [hμ, hk]
    ring
  constructor
  · show ((max (pyRound (adjustedMuPrime ps i p)) 300 : ℤ) : ℚ) = _
    rw [hadj, pyRound_intCast, max_eq_left hk3, hk]
  · show roundSqrt2 (sigmaPrime ps i p) = _
    have hcast : ((roundSqrt2 (sigmaPrime ps i p) : ℚ) : ℝ)
        = ((p.init_rating_deviation : ℚ) : ℝ) := by
      rw [roundSqrt2_eq _ (sigmaPrime_nonneg ps i p), hσ]
      have h1 : (((p.init_rating_deviation ^ 2 : ℚ)) : ℝ)
          = ((p.init_rating_deviation : ℚ) : ℝ) ^ 2 := by push_cast; ring
      have h2 : (0:ℝ) ≤ ((p.init_rating_deviation : ℚ) : ℝ) := by
        exact_mod_cast hdev.le
      rw [h1, Real.sqrt_sq h2]
      have h3 : 100 * ((p.init_rating_deviation : ℚ) : ℝ) = ((d : ℤ) : ℝ) := by
        rw [hd]; push_cast; ring
      rw [h3, pyRoundR_intCast]
      rw [hd]; push_cast; ring
    exact_mod_cast hcast

/-- Witness for claim C4 at a concrete input: a rated 1500-rating,
150-deviation player with no games. -/
theorem claim4_witness :
    specCountedGames 0 idlePlayer = [] ∧
    idlePlayer.init_rating = ((1500 : ℤ) : ℚ) ∧ (300:ℤ) ≤ 1500 ∧
    idlePlayer.init_rating_deviation = ((15000 : ℤ) : ℚ) / 100 ∧
    (0:ℤ) < 15000 ∧
    ((calcNewRatingForPlayer [] 0 idlePlayer).new_rating
        = idlePlayer.init_rating ∧
      (calcNewRatingForPlayer [] 0 idlePlayer).new_rating_deviation
        = idlePlayer.init_rating_deviation) :=
  ⟨by decide, by decide, by decide, by decide, by decide,
    claim4_amended [] 0 idlePlayer 1500 15000
      (by decide) (by decide) (by decide) (by decide) (by decide)⟩

/-- Claim C5 (code bug): `all_rating.PlayerDB.process_one_tournament` calls
`t.calc_ratings(_BETA)` with one positional argument, but
`rating.Tournament.calc_ratings` is defined with none besides `self`, so
every invocation raises `TypeError` before any rating happens and the
function never returns the promised pair. -/
theorem claim5_calc_ratings_arity :
    calcRatingsCallArgCount ≠ calcRatingsParamCount := by decide

/-- Claim C6 (code bug): `Player.update_career_games` tests
`game.opponent != "Zz Bye"`, which compares a `Player` instance to a `str`
and is therefore always `True`; a game against the player named "Zz Bye"
(stored at index 1 of `zzByeSection`) increments `career_games`, although
the claim says games against reserved bye names are excluded. -/
theorem claim6_bye_game_counted :
    (oppOf zzByeSection (zzByeVictim.games.getD 0 default)).name = "Zz Bye" ∧
    (updateCareerGames 0 zzByeVictim).career_games
      = zzByeVictim.career_games + 1 := by
  decide

/-- Counterexample to claim C7: the loop's feedback step resets the
deviation.  An unrated player entering `calc_initial_ratings` with deviation
80 (obtainable from a ratings-file row whose rating is below 100) leaves the
loop with `init_rating_deviation` 150, not 80. -/
theorem claim7_counterexample :
    ((calcInitialRatings umaRob).getD 0 default).init_rating_deviation
      ≠ (umaRob.getD 0 default).init_rating_deviation := by
  decide

/-- Claim C7 (amended): the feedback step `p.set_init_rating(p.new_rating)`
sets the prior rating to the just-computed `new_rating` (which is at least
100, so no unrated-reset fires), but — because the deviation argument
defaults to `MAX_DEVIATION` — it also overwrites `init_rating_deviation`
and `new_rating_deviation` with 150.0 rather than leaving the deviation
untouched; all remaining fields are unchanged. -/
theorem claim7_amended (p : Player) (r : ℚ) (hr : 100 ≤ r) :
    (setInitRating p r MAX_DEVIATION).init_rating = r ∧
    (setInitRating p r MAX_DEVIATION).init_rating_deviation = MAX_DEVIATION ∧
    (setInitRating p r MAX_DEVIATION).new_rating = r ∧
    (setInitRating p r MAX_DEVIATION).new_rating_deviation = MAX_DEVIATION ∧
    (setInitRating p r MAX_DEVIATION).is_unrated = p.is_unrated ∧
    (setInitRating p r MAX_DEVIATION).name = p.name ∧
    (setInitRating p r MAX_DEVIATION).career_games = p.career_games ∧
    (setInitRating p r MAX_DEVIATION).games = p.games ∧
    (setInitRating p r MAX_DEVIATION).wins = p.wins ∧
    (setInitRating p r MAX_DEVIATION).losses = p.losses ∧
    (setInitRating p r MAX_DEVIATION).spread = p.spread := by
  have h : ¬ r < 100 := not_lt.mpr hr
  unfold setInitRating MAX_DEVIATION
  norm_num [h]

/-- Witness for claim C7 at a concrete input: feeding the rating 1486 back
into the default player's state. -/
theorem claim7_witness :
    (100:ℚ) ≤ 1486 ∧
    ((setInitRating default 1486 MAX_DEVIATION).init_rating = 1486 ∧
      (setInitRating default 1486 MAX_DEVIATION).init_rating_deviation
        = MAX_DEVIATION) := by
  have h := claim7_amended default 1486 (by norm_num)
  exact ⟨by norm_num, h.1, h.2.1⟩

/-- Counterexample to claim C8: `set_init_rating` clamps only an exact zero
deviation; the deviation argument 200 (as a ratings file may carry) is
stored as-is, violating `priorDeviation ≤ MAX_DEVIATION`. -/
theorem claim8_counterexample :
    (setInitRating default 1500 200).init_rating_deviation = 200 ∧
    ¬ (setInitRating default 1500 200).init_rating_deviation
        ≤ MAX_DEVIATION := by
  decide

/-- Claim C8 (amended): `set_init_rating` clamps an exact zero deviation to
`MAX_DEVIATION` and stores any other argument unchanged (so the bound
0 < priorDeviation ≤ 150 holds only when the argument is 0 or itself in that
range); inactivity inflation, when it returns, never exceeds
`MAX_DEVIATION`, and returns a positive value for a positive prior
deviation and nonnegative day count. -/
theorem claim8_amended (p : Player) (r d : ℚ) (dev : ℚ) (days : ℤ) :
    (setInitRating p r 0).init_rating_deviation = MAX_DEVIATION ∧
    (d ≠ 0 → (setInitRating p r d).init_rating_deviation = d) ∧
    (∀ x : ℝ, adjustInitialDeviation dev days = some x →
      x ≤ 150 ∧ (0 < dev → 0 ≤ days → 0 < x)) := by
  refine ⟨by simp [setInitRating], fun hd => by simp [setInitRating, hd], ?_⟩
  intro x hx
  unfold adjustInitialDeviation at hx
  by_cases hc : 0 ≤ dev ^ 2 + 100 * (days : ℚ)
  · rw [if_pos hc] at hx
    have hxeq := (Option.some.injEq _ _).mp hx
    subst hxeq
    constructor
    · exact min_le_right _ _
    · intro hdev hdays
      have h1 : (0:ℝ) < ((dev : ℚ) : ℝ) := by exact_mod_cast hdev
      have h2 : (0:ℝ) ≤ ((days : ℤ) : ℝ) := by exact_mod_cast hdays
      have hrad : (0:ℝ) < ((dev : ℚ) : ℝ) ^ 2 + 100 * ((days : ℤ) : ℝ) := by
        have := pow_pos h1 2
        nlinarith
      exact lt_min (Real.sqrt_pos.mpr hrad) (by norm_num)
  · rw [if_neg hc] at hx
    exact absurd hx (by simp)

/-- Witness for claim C8 at concrete inputs: deviation argument 80 is stored
unchanged, 0 is clamped to 150, and a 150-deviation player inactive for 3
days gets a positive deviation of at most 150. -/
theorem claim8_witness :
    ((80:ℚ) ≠ 0 ∧ (setInitRating default 1500 80).init_rating_deviation = 80) ∧
    (setInitRating default 1500 0).init_rating_deviation = MAX_DEVIATION ∧
    (adjustInitialDeviation 150 3
        = some (min (Real.sqrt (((150 : ℚ) : ℝ) ^ 2 + 100 * ((3 : ℤ) : ℝ))) 150) ∧
      min (Real.sqrt (((150 : ℚ) : ℝ) ^ 2 + 100 * ((3 : ℤ) : ℝ))) 150 ≤ 150 ∧
      (0:ℝ) < min (Real.sqrt (((150 : ℚ) : ℝ) ^ 2 + 100 * ((3 : ℤ) : ℝ))) 150) := by
  have hsome : adjustInitialDeviation 150 3
      = some (min (Real.sqrt (((150 : ℚ) : ℝ) ^ 2 + 100 * ((3 : ℤ) : ℝ))) 150) := by
    unfold adjustInitialDeviation
    rw [if_pos (by norm_num)]
  have h := (claim8_amended default 1500 80 150 3).2.2 _ hsome
  exact ⟨⟨by norm_num, (claim8_amended default 1500 80 150 3).2.1 (by norm_num)⟩,
    (claim8_amended default 1500 80 150 3).1,
    hsome, h.1, h.2 (by norm_num) (by norm_num)⟩

/-- Counterexample to claim C9: a tournament dated 300 days before the
player's last-played date gives a negative radicand `150² + 100·(-300)`;
`math.sqrt` raises `ValueError` and `show_exception` re-raises, so the
adjustment does NOT return normally (the negative day count is not clamped
to zero). -/
theorem claim9_counterexample : adjustInitialDeviation 150 (-300) = none := by
  unfold adjustInitialDeviation
  rw [if_neg]
  norm_num

/-- Claim C9 (amended): negative inactive-day counts are propagated into the
radicand, not clamped: when `priorDeviation² + 100·days` is negative the
adjustment raises (returns no value); when it is nonnegative the adjustment
returns `min(sqrt(priorDeviation² + 100·days), MAX_DEVIATION)`, a value at
most `MAX_DEVIATION` and — for a nonpositive day count — at most the prior
deviation (the negative contribution shrinks the deviation). -/
theorem claim9_amended (dev : ℚ) (days : ℤ) :
    (dev ^ 2 + 100 * (days : ℚ) < 0 → adjustInitialDeviation dev days = none) ∧
    (∀ x : ℝ, adjustInitialDeviation dev days = some x →
      x ≤ 150 ∧ (days ≤ 0 → 0 ≤ dev → x ≤ ((dev : ℚ) : ℝ))) := by
  constructor
  · intro h
    unfold adjustInitialDeviation
    rw [if_neg (not_le.mpr h)]
  · intro x hx
    unfold adjustInitialDeviation at hx
    by_cases hc : 0 ≤ dev ^ 2 + 100 * (days : ℚ)
    · rw [if_pos hc] at hx
      have hxeq := (Option.some.injEq _ _).mp hx
      subst hxeq
      constructor
      · exact min_le_right _ _
      · intro hdays hdev0
        have h2 : ((days : ℤ) : ℝ) ≤ 0 := by exact_mod_cast hdays
        have h3 : (0:ℝ) ≤ ((dev : ℚ) : ℝ) := by exact_mod_cast hdev0
        have hle : ((dev : ℚ) : ℝ) ^ 2 + 100 * ((days : ℤ) : ℝ)
            ≤ ((dev : ℚ) : ℝ) ^ 2 := by nlinarith
        calc min (Real.sqrt (((dev : ℚ) : ℝ) ^ 2 + 100 * ((days : ℤ) : ℝ))) 150
            ≤ Real.sqrt (((dev : ℚ) : ℝ) ^ 2 + 100 * ((days : ℤ) : ℝ)) :=
              min_le_left _ _
        _ ≤ Real.sqrt (((dev : ℚ) : ℝ) ^ 2) := Real.sqrt_le_sqrt hle
        _ = ((dev : ℚ) : ℝ) := Real.sqrt_sq h3
    · rw [if_neg hc] at hx
      exact absurd hx (by simp)

/-- Witness for claim C9 at a concrete input: deviation 150, day count
-100: the radicand is nonnegative, the result is returned and is at most 150
and at most the prior deviation. -/
theorem claim9_witness :
    (adjustInitialDeviation 150 (-100)
        = some (min (Real.sqrt (((150 : ℚ) : ℝ) ^ 2 + 100 * ((-100 : ℤ) : ℝ))) 150) ∧
      min (Real.sqrt (((150 : ℚ) : ℝ) ^ 2 + 100 * ((-100 : ℤ) : ℝ))) 150 ≤ 150 ∧
      min (Real.sqrt (((150 : ℚ) : ℝ) ^ 2 + 100 * ((-100 : ℤ) : ℝ))) 150
        ≤ ((150 : ℚ) : ℝ)) := by
  have hsome : adjustInitialDeviation 150 (-100)
      = some (min (Real.sqrt (((150 : ℚ) : ℝ) ^ 2 + 100 * ((-100 : ℤ) : ℝ))) 150) := by
    unfold adjustInitialDeviation
    rw [if_pos (by norm_num)]
  have h := (claim9_amended 150 (-100)).2 _ hsome
  exact ⟨hsome, h.1, h.2 (by norm_num) (by norm_num)⟩

set_option maxRecDepth 40000 in
/-- Counterexample to claim C3: on the repository's own two-player
all-unrated test section (alice/becky, 8 games each, none a bye), the
seeding loop returns a state in which re-running the single-player update on
alice changes her rating by 5, far more than EPS = 0.0001: the loop
re-seeds every player's prior to the 1500 average each iteration, so the
returned state is not a fixed point of the plain update. -/
theorem claim3_counterexample :
    ¬ (|(calcNewRatingForPlayer (calcInitialRatings aliceBecky) 0
          ((calcInitialRatings aliceBecky).getD 0 default)).new_rating
        - ((calcInitialRatings aliceBecky).getD 0 default).init_rating| < EPS) := by
  decide

/-- Claim C3 (amended): `calc_initial_ratings` always terminates, running
between 1 and 50 sweeps of the update over the unrated players (it stops
early only when a sweep moves every unrated player's rating by less than
EPS); the returned state is the result of that many sweeps, but it need not
be within EPS of a fixed point of the plain single-player update, because
each sweep re-seeds every player with at least 40% unrated opponents to the
rated average before updating. -/
theorem claim3_amended (ps : List Player) :
    ∃ n, 1 ≤ n ∧ n ≤ 50 ∧
      calcInitialRatings ps = sweepIter (ratedOpponentAvg ps) n ps :=
  seedLoop_iter (ratedOpponentAvg ps) 50 ps (by norm_num)

/-- Claim C10: after `calc_initial_ratings` returns, every unrated player in
the section has `new_rating_deviation` and `init_rating_deviation` equal to
exactly `MAX_DEVIATION` (150.0), regardless of how many games they played,
because each iteration's `set_init_rating` call uses the default deviation
argument `MAX_DEVIATION`, discarding the deviation computed by the
single-player update. -/
theorem claim10_deviation_reset (ps : List Player) (i : ℕ)
    (hlen : i < ps.length)
    (hu : (ps.getD i default).is_unrated = true) :
    ((calcInitialRatings ps).getD i default).new_rating_deviation
      = MAX_DEVIATION ∧
    ((calcInitialRatings ps).getD i default).init_rating_deviation
      = MAX_DEVIATION := by
  have h := seedLoop_unrated_dev (ratedOpponentAvg ps) 50 ps i
    (by norm_num) hlen hu
  exact ⟨h.2.1, h.1⟩

/-- Witness for claim C10 at a concrete input: alice in the all-unrated
two-player test section. -/
theorem claim10_witness :
    0 < aliceBecky.length ∧
    (aliceBecky.getD 0 default).is_unrated = true ∧
    (((calcInitialRatings aliceBecky).getD 0 default).new_rating_deviation
        = MAX_DEVIATION ∧
      ((calcInitialRatings aliceBecky).getD 0 default).init_rating_deviation
        = MAX_DEVIATION) :=
  ⟨by decide, by decide,
    claim10_deviation_reset aliceBecky 0 (by decide) (by decide)⟩

end Coco
